import Mathlib

/-!
Shallow embedding of `src/components/ParallaxGallery.tsx`: a scrollable
image gallery with a parallax background, simulated infinite-scroll
pagination, and a heuristic front-trimming "memory optimization".

Numbers: JS numbers used in scroll arithmetic are embedded as `ℚ`
(division then `Math.floor` becomes exact rational division then
`Int.floor`); timestamps (`Date.now()`, millisecond waits) are embedded
as `ℤ`; array indices and lengths as `ℕ`.
-/

/-- Record `GalleryItem` (ParallaxGallery.tsx lines 14-21).  `image` is an
asset reference, kept as an opaque string handle. -/
structure GalleryItem where
  id : String
  image : String
  title : String
  author : String
  date : String
  description : String
deriving DecidableEq

/-- Record `BackgroundImage` (lines 23-27). -/
structure BackgroundImage where
  id : String
  image : String
  name : String
deriving DecidableEq

/-- The fixed background list `backgroundImages` (lines 29-33). -/
def backgroundImages : List BackgroundImage :=
  [ { id := "bg1", image := "bg-mountain-sunset.jpg", name := "Mountain Sunset" },
    { id := "bg2", image := "bg-forest-mist.jpg", name := "Forest Mist" },
    { id := "bg3", image := "bg-ocean-cliffs.jpg", name := "Ocean Cliffs" } ]

/-- The fixed content list `galleryItems` (lines 35-60).  The third
description contains an apostrophe in the source, written here via
`Char.ofNat 39`. -/
def galleryItems : List GalleryItem :=
  [ { id := "1", image := "waterfall-tropical.jpg", title := "Tropical Paradise",
      author := "Nature Explorer", date := "2024-01-15",
      description := "A stunning waterfall hidden in the heart of a tropical forest, where crystal clear water cascades through lush vegetation." },
    { id := "2", image := "mountain-peak.jpg", title := "Alpine Majesty",
      author := "Mountain Photographer", date := "2024-01-20",
      description := "The raw beauty of snow-capped peaks reaching toward the heavens, captured in perfect morning light." },
    { id := "3", image := "flower-field.jpg", title := "Wildflower Dreams",
      author := "Botanical Artist", date := "2024-01-25",
      description := "A meadow alive with vibrant wildflowers, painting the landscape in nature" ++ String.singleton (Char.ofNat 39) ++ "s most beautiful colors." } ]

/-- Default used for out-of-range list reads in statements (never hit when
indices are in range). -/
def dummyItem : GalleryItem :=
  { id := "", image := "", title := "", author := "", date := "", description := "" }

/-- Initial mount state `galleryItems.slice(0, 3)` (line 73). -/
def initialVisibleItems : List GalleryItem := galleryItems.take 3

/-- The batch constructed inside the `setTimeout` callback of
`loadMoreItems` (lines 110-122): for `i < itemsPerLoad = 3`,
`sourceIndex = (currentLength + i) % galleryItems.length` and the new item
copies the source entry with id `` `${source.id}-${currentLength + i}` ``. -/
def makeNewItems (currentLength : Nat) : List GalleryItem :=
  (List.range 3).map (fun i =>
    let sourceIndex := (currentLength + i) % galleryItems.length
    let src := galleryItems.getD sourceIndex dummyItem
    { src with id := src.id ++ "-" ++ Nat.repr (currentLength + i) })

/-- The state update `setVisibleItems(prev => [...prev, ...newItems])`
performed by one pagination batch (lines 110-125). -/
def loadMoreAppend (prev : List GalleryItem) : List GalleryItem :=
  prev ++ makeNewItems prev.length

/-- Function `handleMemoryOptimization` (lines 154-166): when more than 20 items are
visible, drop the first `max 0 ⌊(scrollTop - 2*viewportHeight) / 600⌋`
items (`prev.slice(Math.max(0, itemsToKeep))`).  The pixel metrics
`window.innerHeight` and `window.scrollY` are integer-valued, so they are
embedded as `ℤ`; `Math.floor` of the division is `Int.fdiv` (floor
division). -/
def handleMemoryOptimization (viewportHeight scrollTop : ℤ)
    (visibleItems : List GalleryItem) : List GalleryItem :=
  if 20 < visibleItems.length then
    let keepAfterScroll := scrollTop - viewportHeight * 2
    let itemHeight : ℤ := 600
    let itemsToKeep : ℤ := keepAfterScroll.fdiv itemHeight
    visibleItems.drop (max 0 itemsToKeep).toNat
  else visibleItems

/-- The background index computed at lines 93-95:
`Math.max(0, Math.min(Math.floor((scrollY / scrollHeight) * N), N - 1))`. -/
def clampedBgIndex (n : Nat) (scrollHeight scrollY : ℚ) : ℤ :=
  let scrollProgress := scrollY / scrollHeight
  let newBgIndex : ℤ := Int.floor (scrollProgress * (n : ℚ))
  max 0 (min newBgIndex ((n : ℤ) - 1))

/-- One run of the background-selection effect (lines 87-100), given the
host-supplied `scrollHeight = document.scrollHeight - window.innerHeight`.
Returns the new `currentBgIndex` together with whether `setCurrentBgIndex`
was called (the JS guard `clampedIndex !== currentBgIndex &&
backgroundImages[clampedIndex]`; element existence is index-in-bounds). -/
def bgStepUpd (bgs : List BackgroundImage) (scrollHeight scrollY : ℚ)
    (currentBgIndex : ℤ) : ℤ × Bool :=
  if bgs.length = 0 then (currentBgIndex, false)
  else if scrollHeight ≤ 0 then (currentBgIndex, false)
  else
    let clampedIndex := clampedBgIndex bgs.length scrollHeight scrollY
    if clampedIndex ≠ currentBgIndex ∧ clampedIndex.toNat < bgs.length then
      (clampedIndex, true)
    else (currentBgIndex, false)

/-- The resulting `currentBgIndex` after one background-selection run. -/
def bgStep (bgs : List BackgroundImage) (scrollHeight scrollY : ℚ)
    (currentBgIndex : ℤ) : ℤ :=
  (bgStepUpd bgs scrollHeight scrollY currentBgIndex).1

/-- The `throttle` utility's captured state (lines 288-311): the pending
trailing-edge timer (its scheduled fire time and the arguments captured
when it was created) and `previous`, the time of the last execution. -/
structure ThrottleState (α : Type) where
  timeout : Option (Int × α)
  previous : Int
deriving DecidableEq

/-- Initial throttle state, `let timeout = null; let previous = 0` (lines 289-290). -/
def throttleInit {α : Type} : ThrottleState α := ⟨none, 0⟩

/-- One invocation of the throttled function at time `now` with arguments
`a` (lines 292-310).  Returns the new captured state and the list of
executions of the wrapped `func` performed synchronously (time the
execution happens, arguments it receives): the leading edge calls `func`
immediately; an in-window call with no pending timer schedules the
trailing edge `remaining` later (i.e. at `now + remaining`); an in-window
call while a timer is pending does nothing. -/
def throttleCall {α : Type} (wait : Int) (s : ThrottleState α) (now : Int)
    (a : α) : ThrottleState α × List (Int × α) :=
  let remaining := wait - (now - s.previous)
  if remaining ≤ 0 ∨ wait < remaining then
    ({ timeout := none, previous := now }, [(now, a)])
  else
    match s.timeout with
    | none => ({ timeout := some (now + remaining, a), previous := s.previous }, [])
    | some _ => (s, [])

/-- The trailing-edge timer callback (lines 304-308) fired at its
scheduled time `tf`: sets `previous = Date.now()`, clears the timer and
calls `func` with the captured arguments.  `firePending s now` fires the
pending timer if its scheduled time has been reached. -/
def firePending {α : Type} (s : ThrottleState α) (now : Int) :
    ThrottleState α × List (Int × α) :=
  match s.timeout with
  | some (tf, a) => if tf ≤ now then (⟨none, tf⟩, [(tf, a)]) else (s, [])
  | none => (s, [])

/-- Fire the pending trailing-edge timer unconditionally (used to flush a
timer scheduled beyond the last call of a run). -/
def flushPending {α : Type} (s : ThrottleState α) :
    ThrottleState α × List (Int × α) :=
  match s.timeout with
  | some (tf, a) => (⟨none, tf⟩, [(tf, a)])
  | none => (s, [])

/-- Run the throttled function over a time-ordered list of invocations
`(time, args)`, firing the pending trailing-edge timer whenever its
scheduled time has passed, and flushing it at the end.  Returns the final
state and all executions of the wrapped `func` in order. -/
def runThrottle {α : Type} (wait : Int) (s : ThrottleState α) :
    List (Int × α) → ThrottleState α × List (Int × α)
  | [] => flushPending s
  | (now, a) :: rest =>
    let f := firePending s now
    let c := throttleCall wait f.1 now a
    let r := runThrottle wait c.1 rest
    (r.1, f.2 ++ c.2 ++ r.2)

/-!  The pagination / lifecycle state machine.

State reachable through React for the pagination-relevant parts of the
component: `visibleItems` and `isLoading` are the `useState` cells
(lines 63, 65); `mounted` records whether the component is mounted;
`observerConnected` whether the `IntersectionObserver` of lines 131-150
is connected; `pendingLoadTimer` whether the 500ms `setTimeout` of
line 109 is pending.  The scroll offset and background index do not
interact with pagination and are modelled separately by `bgStep`. -/
structure CompState where
  visibleItems : List GalleryItem
  isLoading : Bool
  mounted : Bool
  observerConnected : Bool
  pendingLoadTimer : Bool
deriving DecidableEq

/-- Events that drive the pagination-relevant state. -/
inductive GalleryEvent where
  /-- The sentinel's `IntersectionObserver` callback with
  `entries[0].isIntersecting` (lines 134-141), which calls
  `loadMoreItems`. -/
  | sentinelTrigger : GalleryEvent
  /-- The 500ms `setTimeout` callback of `loadMoreItems` firing
  (lines 109-127). -/
  | loadTimerFire : GalleryEvent
  /-- The (throttled) scroll handler running `handleMemoryOptimization`
  (lines 153-172) with the current viewport height and scroll top. -/
  | memoryOptimize (viewportHeight scrollTop : ℤ) : GalleryEvent
  /-- Unmount: the effect cleanups run (lines 83, 147-149, 171): they
  disconnect the observer and remove the scroll listeners.  No cleanup
  clears the `setTimeout` of line 109, so `pendingLoadTimer` survives. -/
  | unmount : GalleryEvent

/-- Whether an event is a trim pass. -/
def GalleryEvent.isTrim : GalleryEvent → Bool
  | .memoryOptimize _ _ => true
  | _ => false

/-- State after mount: initial items loaded (line 73), observer connected
(lines 131-150), nothing loading. -/
def initState : CompState :=
  { visibleItems := initialVisibleItems, isLoading := false, mounted := true,
    observerConnected := true, pendingLoadTimer := false }

/-- One transition of the component.  `sentinelTrigger` runs
`loadMoreItems` (line 103-128): re-entry is gated by `if (isLoading)
return`.  `loadTimerFire` runs the `setTimeout` body even when the
component is no longer mounted, because no cleanup ever calls
`clearTimeout` on it. -/
def step (s : CompState) : GalleryEvent → CompState
  | .sentinelTrigger =>
    if s.observerConnected && !s.isLoading then
      { s with isLoading := true, pendingLoadTimer := true }
    else s
  | .loadTimerFire =>
    if s.pendingLoadTimer then
      { s with visibleItems := loadMoreAppend s.visibleItems,
               isLoading := false, pendingLoadTimer := false }
    else s
  | .memoryOptimize vh st =>
    if s.mounted then
      { s with visibleItems := handleMemoryOptimization vh st s.visibleItems }
    else s
  | .unmount => { s with mounted := false, observerConnected := false }

/-- Run a sequence of events from a state. -/
def runEvents (s : CompState) (evs : List GalleryEvent) : CompState :=
  evs.foldl step s

/-- The visible list after `k` pagination batches and no trim. -/
def appendIter : Nat → List GalleryItem
  | 0 => initialVisibleItems
  | k + 1 => loadMoreAppend (appendIter k)

/-- The synthesized id of the entry created with running counter `c`. -/
def newId (c : Nat) : String :=
  (galleryItems.getD (c % galleryItems.length) dummyItem).id ++ "-" ++ Nat.repr c

/-- A list of `n` pairwise-distinct generic items, used to exercise the
trim pass on concrete inputs. -/
def mkItems (n : Nat) : List GalleryItem :=
  (List.range n).map fun i => { dummyItem with id := Nat.repr i }

/-- C4: for scrollable height `H > 0`, background count `n ≥ 1` and
`scrollOffset ∈ [0, H]`, the computed background index
`⌊(scrollOffset / H) * n⌋` clamped to `[0, n-1]` lies in `[0, n-1]`, is
monotonically non-decreasing in the offset, equals `0` at offset `0` and
equals `n - 1` at offset `H`. -/
theorem bgIndex_range_monotone_endpoints (n : Nat) (H y y' : ℚ)
    (hn : 1 ≤ n) (hH : 0 < H) (hy : 0 ≤ y) (hyy' : y ≤ y') (hy'H : y' ≤ H) :
    (0 ≤ clampedBgIndex n H y ∧ clampedBgIndex n H y ≤ (n : ℤ) - 1) ∧
    clampedBgIndex n H y ≤ clampedBgIndex n H y' ∧
    clampedBgIndex n H 0 = 0 ∧ clampedBgIndex n H H = (n : ℤ) - 1 := by
  have hn1 : (0 : ℤ) ≤ (n : ℤ) - 1 := by
    have : (1 : ℤ) ≤ (n : ℤ) := by exact_mod_cast hn
    omega
  refine ⟨⟨le_max_left _ _, max_le hn1 (min_le_right _ _)⟩, ?_, ?_, ?_⟩
  · unfold clampedBgIndex
    refine max_le_max le_rfl (min_le_min ?_ le_rfl)
    exact Int.floor_le_floor
      (mul_le_mul_of_nonneg_right
        (div_le_div_of_nonneg_right hyy' hH.le) (by positivity))
  · simp only [clampedBgIndex, zero_div, zero_mul, Int.floor_zero]
    rw [min_eq_left hn1, max_self]
  · simp only [clampedBgIndex, div_self hH.ne', one_mul, Int.floor_natCast]
    rw [min_eq_right (by omega), max_eq_right hn1]

/-- Witness for C4 at `n = 3`, `H = 2`, `y = 0`, `y' = 2`. -/
theorem bgIndex_range_monotone_endpoints_witness :
    (1 ≤ 3 ∧ (0 : ℚ) < 2 ∧ (0 : ℚ) ≤ 0 ∧ (0 : ℚ) ≤ 2 ∧ (2 : ℚ) ≤ 2) ∧
    ((0 ≤ clampedBgIndex 3 2 0 ∧ clampedBgIndex 3 2 0 ≤ (3 : ℤ) - 1) ∧
      clampedBgIndex 3 2 0 ≤ clampedBgIndex 3 2 2 ∧
      clampedBgIndex 3 2 0 = 0 ∧ clampedBgIndex 3 2 2 = (3 : ℤ) - 1) :=
  ⟨⟨by decide, by decide, by decide, by decide, by decide⟩,
    bgIndex_range_monotone_endpoints 3 2 0 2 (by decide) (by decide) (by decide)
      (by decide) (by decide)⟩

/-- C8: when the scrollable height is non-positive or the background list
is empty, the background-selection effect leaves `currentBgIndex`
unchanged and performs no state update. -/
theorem bgStep_skip (bgs : List BackgroundImage) (H y : ℚ) (cur : ℤ)
    (h : H ≤ 0 ∨ bgs.length = 0) :
    bgStepUpd bgs H y cur = (cur, false) := by
  rcases h with h | h
  · by_cases h0 : bgs.length = 0 <;> simp [bgStepUpd, h0, h]
  · simp [bgStepUpd, h]

/-- Witness for C8 at `H = -1` with the fixed background list. -/
theorem bgStep_skip_witness :
    ((-1 : ℚ) ≤ 0 ∨ backgroundImages.length = 0) ∧
    bgStepUpd backgroundImages (-1) 7 2 = (2, false) :=
  ⟨Or.inl (by decide), bgStep_skip backgroundImages (-1) 7 2 (Or.inl (by decide))⟩

/-- C9: background-index recomputation is idempotent: re-running the
background-selection effect with the same offset yields the same index
and performs no second state update (the setter is called only when the
clamped index differs from the current value). -/
theorem bgStep_idempotent (bgs : List BackgroundImage) (H y : ℚ) (cur : ℤ) :
    bgStepUpd bgs H y (bgStep bgs H y cur) = (bgStep bgs H y cur, false) := by
  by_cases h0 : bgs.length = 0
  · simp [bgStepUpd, bgStep, h0]
  · by_cases hH : H ≤ 0
    · simp [bgStepUpd, bgStep, h0, hH]
    · by_cases hg : clampedBgIndex bgs.length H y ≠ cur ∧
        (clampedBgIndex bgs.length H y).toNat < bgs.length
      · simp [bgStepUpd, bgStep, h0, hH, hg]
      · simp [bgStepUpd, bgStep, h0, hH, hg]

/-- C6: whenever more than 20 items are visible, the trim pass drops
exactly the first `max 0 ⌊(scrollTop - 2·viewportHeight) / 600⌋` entries,
keeping the remaining suffix in order; with 25 items, viewport height 800
and scroll top 4000 it drops the first 4 entries, leaving 21. -/
theorem trim_drops_front (l : List GalleryItem) (vh st : ℤ)
    (h : 20 < l.length) :
    handleMemoryOptimization vh st l =
      l.drop (max 0 ((st - 2 * vh).fdiv 600)).toNat ∧
    handleMemoryOptimization vh st l <:+ l ∧
    handleMemoryOptimization 800 4000 (mkItems 25) = (mkItems 25).drop 4 ∧
    (handleMemoryOptimization 800 4000 (mkItems 25)).length = 21 := by
  have he : handleMemoryOptimization vh st l =
      l.drop (max 0 ((st - 2 * vh).fdiv 600)).toNat := by
    have h2 : st - vh * 2 = st - 2 * vh := by ring
    simp only [handleMemoryOptimization, if_pos h, h2]
  exact ⟨he, he ▸ List.drop_suffix _ _, by decide, by decide⟩

/-- Witness for C6 at the 25-item list, viewport 800, scroll top 4000. -/
theorem trim_drops_front_witness :
    20 < (mkItems 25).length ∧
    (handleMemoryOptimization 800 4000 (mkItems 25) =
        (mkItems 25).drop (max 0 (((4000 : ℤ) - 2 * 800).fdiv 600)).toNat ∧
      handleMemoryOptimization 800 4000 (mkItems 25) <:+ mkItems 25 ∧
      handleMemoryOptimization 800 4000 (mkItems 25) = (mkItems 25).drop 4 ∧
      (handleMemoryOptimization 800 4000 (mkItems 25)).length = 21) :=
  ⟨by decide, trim_drops_front (mkItems 25) 800 4000 (by decide)⟩

/-- C10: trimming has no lower bound on the retained count: there is a
state with more than 20 visible items and a scroll position whose single
trim pass removes every entry. -/
theorem trim_can_remove_everything :
    ∃ (vh st : ℤ) (l : List GalleryItem), 20 < l.length ∧
      (l.length : ℤ) ≤ (st - 2 * vh).fdiv 600 ∧
      handleMemoryOptimization vh st l = [] :=
  ⟨800, 14200, mkItems 21, by decide, by decide, by decide⟩

/-- C5: one pagination batch appends exactly 3 entries; entry `i` copies
every field of `galleryItems[(L + i) % galleryItems.length]` except the
id, which is the source id suffixed with `"-" ++ toString (L + i)`; from
the initial 3 entries one batch yields 6 entries ending in ids
`"1-3", "2-4", "3-5"`. -/
theorem pagination_batch (prev : List GalleryItem) (i : Nat) (hi : i < 3) :
    (loadMoreAppend prev).length = prev.length + 3 ∧
    (loadMoreAppend prev).getD (prev.length + i) dummyItem =
      { galleryItems.getD ((prev.length + i) % galleryItems.length) dummyItem with
          id := (galleryItems.getD ((prev.length + i) % galleryItems.length)
                  dummyItem).id ++ "-" ++ Nat.repr (prev.length + i) } ∧
    (loadMoreAppend initialVisibleItems).map GalleryItem.id =
      ["1", "2", "3", "1-3", "2-4", "3-5"] ∧
    (loadMoreAppend initialVisibleItems).length = 6 := by
  refine ⟨?_, ?_, by decide, by decide⟩
  · simp [loadMoreAppend, makeNewItems]
  · rw [loadMoreAppend,
      List.getD_append_right prev _ dummyItem _ (Nat.le_add_right _ _),
      Nat.add_sub_cancel_left]
    interval_cases i <;> rfl

/-- Witness for C5 at `prev = []`, `i = 0`. -/
theorem pagination_batch_witness :
    0 < 3 ∧
    ((loadMoreAppend ([] : List GalleryItem)).length =
        ([] : List GalleryItem).length + 3 ∧
      (loadMoreAppend ([] : List GalleryItem)).getD
          (([] : List GalleryItem).length + 0) dummyItem =
        { galleryItems.getD
            ((([] : List GalleryItem).length + 0) % galleryItems.length)
            dummyItem with
            id := (galleryItems.getD
                    ((([] : List GalleryItem).length + 0) % galleryItems.length)
                    dummyItem).id ++ "-" ++
                  Nat.repr (([] : List GalleryItem).length + 0) } ∧
      (loadMoreAppend initialVisibleItems).map GalleryItem.id =
        ["1", "2", "3", "1-3", "2-4", "3-5"] ∧
      (loadMoreAppend initialVisibleItems).length = 6) :=
  ⟨by decide, pagination_batch [] 0 (by decide)⟩

/-- C7: sentinel triggers arriving while a batch is loading are ignored
(`loadMoreItems` returns early when `isLoading`), so two rapid triggers
produce exactly one appended batch of 3, not two. -/
theorem pagination_single_flight (s : CompState) (h : s.isLoading = true) :
    step s .sentinelTrigger = s ∧
    runEvents initState
        [.sentinelTrigger, .sentinelTrigger, .loadTimerFire] =
      runEvents initState [.sentinelTrigger, .loadTimerFire] ∧
    (runEvents initState
        [.sentinelTrigger, .sentinelTrigger, .loadTimerFire]).visibleItems.length = 6 := by
  refine ⟨?_, by decide, by decide⟩
  simp [step, h]

/-- Witness for C7 at the state reached after one sentinel trigger. -/
theorem pagination_single_flight_witness :
    (runEvents initState [GalleryEvent.sentinelTrigger]).isLoading = true ∧
    (step (runEvents initState [GalleryEvent.sentinelTrigger])
        .sentinelTrigger = runEvents initState [GalleryEvent.sentinelTrigger] ∧
      runEvents initState
          [.sentinelTrigger, .sentinelTrigger, .loadTimerFire] =
        runEvents initState [.sentinelTrigger, .loadTimerFire] ∧
      (runEvents initState
          [.sentinelTrigger, .sentinelTrigger, .loadTimerFire]).visibleItems.length = 6) :=
  ⟨by decide, pagination_single_flight
    (runEvents initState [GalleryEvent.sentinelTrigger]) (by decide)⟩

/-!  Throttle lemmas. -/

/-- A call at or past the window's end executes `func` immediately and
resets the window (leading edge, lines 296-302). -/
theorem throttleCall_leading {α : Type} (wait : Int) (s : ThrottleState α)
    (now : Int) (a : α) (h : s.previous + wait ≤ now) :
    throttleCall wait s now a = (⟨none, now⟩, [(now, a)]) := by
  simp only [throttleCall]
  rw [if_pos (Or.inl (by omega : wait - (now - s.previous) ≤ 0))]

/-- An in-window call with no pending timer schedules the trailing edge
exactly at the window's end `previous + wait`, capturing this call's
arguments, and executes nothing now (lines 303-309). -/
theorem throttleCall_defer {α : Type} (wait : Int) (s : ThrottleState α)
    (now : Int) (a : α) (h1 : s.timeout = none) (h2 : s.previous ≤ now)
    (h3 : now < s.previous + wait) :
    throttleCall wait s now a =
      (⟨some (s.previous + wait, a), s.previous⟩, []) := by
  simp only [throttleCall]
  rw [if_neg (by omega), h1]
  have he : now + (wait - (now - s.previous)) = s.previous + wait := by omega
  rw [he]

/-- An in-window call while a trailing-edge timer is already pending is
ignored entirely: no execution, no state change, and in particular the
pending timer keeps the arguments it already captured (lines 303,
`else if (!timeout)` false). -/
theorem throttleCall_drop {α : Type} (wait : Int) (s : ThrottleState α)
    (now : Int) (a : α) (p : Int × α) (h1 : s.timeout = some p)
    (h2 : s.previous ≤ now) (h3 : now < s.previous + wait) :
    throttleCall wait s now a = (s, []) := by
  simp only [throttleCall]
  rw [if_neg (by omega), h1]

/-- Assembling a spaced execution list. -/
theorem chain'_cons_of_bound {α : Type} (wait : Int) (x : Int × α)
    (l : List (Int × α)) (hl : l.Chain' (fun p q => p.1 + wait ≤ q.1))
    (hb : ∀ o ∈ l, x.1 + wait ≤ o.1) :
    (x :: l).Chain' (fun p q => p.1 + wait ≤ q.1) := by
  rw [List.chain'_cons']
  exact ⟨fun y hy => hb y (List.mem_of_mem_head? hy), hl⟩

/-- Spacing lemma: starting from a state whose pending timer (if any) is
scheduled at `previous + wait` and feeding time-ordered calls no earlier
than `previous`, consecutive executions of the wrapped function are at
least `wait` apart, and every execution happens at or after
`previous + wait`. -/
theorem runThrottle_spacing {α : Type} (wait : Int) (hw : 0 < wait) :
    ∀ (calls : List (Int × α)) (s : ThrottleState α),
      (∀ tf a, s.timeout = some (tf, a) → tf = s.previous + wait) →
      calls.Pairwise (fun x y => x.1 ≤ y.1) →
      (∀ c ∈ calls, s.previous ≤ c.1) →
      (runThrottle wait s calls).2.Chain' (fun x y => x.1 + wait ≤ y.1) ∧
      ∀ o ∈ (runThrottle wait s calls).2, s.previous + wait ≤ o.1 := by
  intro calls
  induction calls with
  | nil =>
    intro s hinv _ _
    match hs : s.timeout with
    | none => simp [runThrottle, flushPending, hs]
    | some (tf, b) =>
      have := hinv tf b hs
      simp only [runThrottle, flushPending, hs]
      constructor
      · simp
      · intro o ho
        simp at ho
        rw [ho]
        omega
  | cons hd rest ih =>
    obtain ⟨now, a⟩ := hd
    intro s hinv hmono hge
    have hprev : s.previous ≤ now := hge _ (List.mem_cons_self _ _)
    have hmono_rest : rest.Pairwise (fun x y => x.1 ≤ y.1) :=
      (List.pairwise_cons.mp hmono).2
    have hnow_rest : ∀ y ∈ rest, now ≤ y.1 :=
      (List.pairwise_cons.mp hmono).1
    match hs : s.timeout with
    | some (tf, b) =>
      have htf : tf = s.previous + wait := hinv tf b hs
      have hf : firePending s now =
          if tf ≤ now then (⟨none, tf⟩, [(tf, b)]) else (s, []) := by
        simp [firePending, hs]
      by_cases hfire : tf ≤ now
      · rw [if_pos hfire] at hf
        by_cases hlead : tf + wait ≤ now
        · -- leading edge after the trailing fire
          have hc := throttleCall_leading wait (⟨none, tf⟩ : ThrottleState α)
            now a hlead
          obtain ⟨ihc, ihb⟩ := ih ⟨none, now⟩ (by simp)
            hmono_rest (fun y hy => by simpa using hnow_rest y hy)
          simp only [runThrottle, hf, hc]
          constructor
          · apply chain'_cons_of_bound wait _ _
              (chain'_cons_of_bound wait _ _ ihc (fun o ho => ihb o ho))
            intro o ho
            simp only [List.mem_cons] at ho
            rcases ho with rfl | ho
            · simpa using hlead
            · have := ihb o ho
              simp only at this ⊢
              omega
          · intro o ho
            simp only [List.cons_append, List.nil_append, List.mem_cons] at ho
            rcases ho with rfl | rfl | ho
            · omega
            · simp only
              omega
            · have := ihb o ho
              simp only at this
              omega
        · -- trailing fire, then the call re-defers
          have hc := throttleCall_defer wait (⟨none, tf⟩ : ThrottleState α)
            now a rfl hfire (by show now < tf + wait; omega)
          obtain ⟨ihc, ihb⟩ := ih ⟨some (tf + wait, a), tf⟩
            (by intro tf' a' h'; simp at h'; show tf' = tf + wait; omega)
            hmono_rest (fun y hy => by simpa using le_trans hfire (hnow_rest y hy))
          simp only [runThrottle, hf, hc]
          constructor
          · apply chain'_cons_of_bound wait _ _ ihc
            intro o ho
            exact ihb o ho
          · intro o ho
            simp only [List.cons_append, List.nil_append, List.mem_cons] at ho
            rcases ho with rfl | ho
            · omega
            · have := ihb o ho
              simp only at this
              omega
      · -- the pending timer is not due yet: the call is in-window, dropped
        rw [if_neg hfire] at hf
        have hc := throttleCall_drop wait s now a (tf, b) hs hprev (by omega)
        obtain ⟨ihc, ihb⟩ := ih s hinv hmono_rest
          (fun y hy => le_trans hprev (hnow_rest y hy))
        simp only [runThrottle, hf, hc]
        exact ⟨ihc, fun o ho => ihb o ho⟩
    | none =>
      have hf : firePending s now = (s, []) := by simp [firePending, hs]
      by_cases hlead : s.previous + wait ≤ now
      · have hc := throttleCall_leading wait s now a hlead
        obtain ⟨ihc, ihb⟩ := ih ⟨none, now⟩ (by simp)
          hmono_rest hnow_rest
        simp only [runThrottle, hf, hc]
        constructor
        · apply chain'_cons_of_bound wait _ _ ihc
          intro o ho
          exact ihb o ho
        · intro o ho
          simp only [List.nil_append, List.cons_append, List.mem_cons] at ho
          rcases ho with rfl | ho
          · simpa using hlead
          · have := ihb o ho
            simp only at this
            omega
      · have hc := throttleCall_defer wait s now a hs hprev (by omega)
        obtain ⟨ihc, ihb⟩ := ih ⟨some (s.previous + wait, a), s.previous⟩
          (by intro tf' a' h'; simp at h'; show tf' = s.previous + wait; omega)
          hmono_rest (fun y hy => by simpa using le_trans hprev (hnow_rest y hy))
        simp only [runThrottle, hf, hc]
        exact ⟨ihc, fun o ho => ihb o ho⟩

/-- C3 counterexample: with cooldown 1000 and calls at times 2000
(args 0), 2100 (args 1) and 2500 (args 2), the wrapped function runs at
2000 with args 0 (leading edge) and at the window's end 3000 with args 1
— the arguments of the FIRST call that arrived inside the window, not of
the latest one (args 2), which was dropped.  This falsifies the claim
that the deferred execution uses the latest in-window arguments and that
later in-window calls replace the pending deferred call. -/
theorem throttle_first_args_counterexample :
    (runThrottle 1000 (throttleInit (α := Nat))
        [(2000, 0), (2100, 1), (2500, 2)]).2 = [(2000, 0), (3000, 1)] ∧
    ((runThrottle 1000 (throttleInit (α := Nat))
        [(2000, 0), (2100, 1), (2500, 2)]).2.map Prod.snd = [0, 1] ∧
      (1 : Nat) ≠ 2) := by
  refine ⟨by decide, by decide, by decide⟩

/-- C3 (amended): for every time-ordered sequence of calls to the
throttled handler, the wrapped function executes at most once per
cooldown window — consecutive executions are at least `wait` apart; a
call arriving inside the window while no deferred call is pending is
deferred to execute exactly once at the window's end with that
(first) call's arguments; a later in-window call while a deferred call is
pending is ignored — it neither executes nor replaces the pending
arguments; a fired trailing-edge timer clears itself, so each deferred
call executes exactly once. -/
theorem throttle_rate_limited {α : Type} (wait : Int) (hw : 0 < wait)
    (calls : List (Int × α))
    (hmono : calls.Pairwise (fun x y => x.1 ≤ y.1))
    (hpos : ∀ c ∈ calls, 0 ≤ c.1) :
    (runThrottle wait throttleInit calls).2.Chain'
        (fun x y => x.1 + wait ≤ y.1) ∧
    (∀ (s : ThrottleState α) (now : Int) (a : α),
      s.timeout = none → s.previous ≤ now → now < s.previous + wait →
      throttleCall wait s now a =
        (⟨some (s.previous + wait, a), s.previous⟩, [])) ∧
    (∀ (s : ThrottleState α) (now : Int) (a : α) (p : Int × α),
      s.timeout = some p → s.previous ≤ now → now < s.previous + wait →
      throttleCall wait s now a = (s, [])) ∧
    (∀ (prev tf now : Int) (a : α), tf ≤ now →
      firePending (⟨some (tf, a), prev⟩ : ThrottleState α) now =
        (⟨none, tf⟩, [(tf, a)])) := by
  refine ⟨?_, ?_, ?_, ?_⟩
  · exact (runThrottle_spacing wait hw calls throttleInit
      (by intro tf a h; simp [throttleInit] at h)
      hmono (fun c hc => hpos c hc)).1
  · intro s now a h1 h2 h3
    exact throttleCall_defer wait s now a h1 h2 h3
  · intro s now a p h1 h2 h3
    exact throttleCall_drop wait s now a p h1 h2 h3
  · intro prev tf now a h
    simp [firePending, h]

/-- Witness for the amended C3 at cooldown 1000 and the three-call trace
of the counterexample. -/
theorem throttle_rate_limited_witness :
    ((0 : Int) < 1000 ∧
      ([((2000 : Int), (0 : Nat)), (2100, 1), (2500, 2)]).Pairwise
        (fun x y => x.1 ≤ y.1) ∧
      (∀ c ∈ [((2000 : Int), (0 : Nat)), (2100, 1), (2500, 2)], 0 ≤ c.1)) ∧
    ((runThrottle 1000 throttleInit
        [((2000 : Int), (0 : Nat)), (2100, 1), (2500, 2)]).2.Chain'
        (fun x y => x.1 + 1000 ≤ y.1) ∧
      (∀ (s : ThrottleState Nat) (now : Int) (a : Nat),
        s.timeout = none → s.previous ≤ now → now < s.previous + 1000 →
        throttleCall 1000 s now a =
          (⟨some (s.previous + 1000, a), s.previous⟩, [])) ∧
      (∀ (s : ThrottleState Nat) (now : Int) (a : Nat) (p : Int × Nat),
        s.timeout = some p → s.previous ≤ now → now < s.previous + 1000 →
        throttleCall 1000 s now a = (s, [])) ∧
      (∀ (prev tf now : Int) (a : Nat), tf ≤ now →
        firePending (⟨some (tf, a), prev⟩ : ThrottleState Nat) now =
          (⟨none, tf⟩, [(tf, a)]))) :=
  ⟨⟨by decide, by decide, by decide⟩,
    throttle_rate_limited 1000 (by decide)
      [((2000 : Int), (0 : Nat)), (2100, 1), (2500, 2)] (by decide) (by decide)⟩

/-!  Decimal representation: injectivity of `Nat.repr`, needed to reason
about the synthesized ids `src.id ++ "-" ++ Nat.repr counter`. -/

/-- Accumulator lemma for `Nat.toDigitsCore`. -/
theorem toDigitsCore_acc (b : Nat) :
    ∀ (f n : Nat) (ds : List Char),
      Nat.toDigitsCore b f n ds = Nat.toDigitsCore b f n [] ++ ds := by
  intro f
  induction f with
  | zero => intro n ds; simp [Nat.toDigitsCore]
  | succ f ih =>
    intro n ds
    simp only [Nat.toDigitsCore]
    by_cases h : n / b = 0
    · simp [h]
    · simp only [h, if_false]
      rw [ih (n / b) (Nat.digitChar (n % b) :: ds),
        ih (n / b) [Nat.digitChar (n % b)]]
      simp

/-- With enough fuel, `Nat.toDigitsCore` produces the reversed
`Nat.digits`, mapped through `Nat.digitChar`. -/
theorem toDigitsCore_eq_digits (b : Nat) (hb : 2 ≤ b) :
    ∀ (n : Nat), 0 < n → ∀ (f : Nat), n < f →
      Nat.toDigitsCore b f n [] =
        ((Nat.digits b n).map Nat.digitChar).reverse := by
  intro n
  induction n using Nat.strong_induction_on with
  | _ n ih =>
    intro hn f hf
    match f, hf with
    | f + 1, hf =>
      rw [Nat.digits_def' (by omega : 1 < b) hn]
      simp only [Nat.toDigitsCore, List.map_cons, List.reverse_cons]
      by_cases h : n / b = 0
      · simp [h]
      · simp only [h, if_false]
        have hdiv : n / b < n := Nat.div_lt_self hn (by omega)
        rw [toDigitsCore_acc,
          ih (n / b) hdiv (Nat.pos_of_ne_zero h) f (by omega)]

/-- Decimal digit list underlying `Nat.repr` (`Nat.digits 10`, except at
`0` where the printed form is `"0"`). -/
def reprDigits (n : Nat) : List Nat :=
  if n = 0 then [0] else Nat.digits 10 n

/-- Printing: `Nat.repr` renders `reprDigits`, most significant digit first. -/
theorem repr_eq_reprDigits (n : Nat) :
    Nat.repr n = (((reprDigits n).map Nat.digitChar).reverse).asString := by
  by_cases h : n = 0
  · subst h; rfl
  · rw [reprDigits, if_neg h]
    show (Nat.toDigits 10 n).asString = _
    rw [Nat.toDigits, toDigitsCore_eq_digits 10 (by omega) n
      (Nat.pos_of_ne_zero h) (n + 1) (Nat.lt_succ_self n)]

/-- Every entry of `reprDigits` is a decimal digit. -/
theorem reprDigits_lt_ten (n : Nat) : ∀ d ∈ reprDigits n, d < 10 := by
  intro d hd
  rw [reprDigits] at hd
  by_cases h : n = 0
  · rw [if_pos h] at hd
    simp at hd
    omega
  · rw [if_neg h] at hd
    exact Nat.digits_lt_base (by omega) hd

/-- Injectivity of `reprDigits`. -/
theorem reprDigits_inj (m n : Nat) (h : reprDigits m = reprDigits n) :
    m = n := by
  unfold reprDigits at h
  by_cases hm : m = 0 <;> by_cases hn : n = 0
  · omega
  · rw [if_pos hm, if_neg hn] at h
    have h0 : (0 : ℕ) = n := by
      rw [← Nat.ofDigits_digits 10 n, ← h]
      simp [Nat.ofDigits]
    omega
  · rw [if_neg hm, if_pos hn] at h
    have h0 : (0 : ℕ) = m := by
      rw [← Nat.ofDigits_digits 10 m, h]
      simp [Nat.ofDigits]
    omega
  · rw [if_neg hm, if_neg hn] at h
    calc m = Nat.ofDigits 10 (Nat.digits 10 m) := (Nat.ofDigits_digits 10 m).symm
    _ = Nat.ofDigits 10 (Nat.digits 10 n) := by rw [h]
    _ = n := Nat.ofDigits_digits 10 n

/-- Injectivity of `Nat.digitChar` on decimal digits. -/
theorem digitChar_inj_lt_ten :
    ∀ a, a < 10 → ∀ c, c < 10 → Nat.digitChar a = Nat.digitChar c → a = c := by
  decide

/-- Injectivity of `List.map Nat.digitChar` on lists of decimal digits. -/
theorem map_digitChar_inj :
    ∀ (l₁ l₂ : List Nat), (∀ x ∈ l₁, x < 10) → (∀ x ∈ l₂, x < 10) →
      l₁.map Nat.digitChar = l₂.map Nat.digitChar → l₁ = l₂ := by
  intro l₁
  induction l₁ with
  | nil => intro l₂ _ _ h; cases l₂ <;> simp_all
  | cons a t ih =>
    intro l₂ h₁ h₂ h
    cases l₂ with
    | nil => simp at h
    | cons c t₂ =>
      simp only [List.map_cons, List.cons.injEq] at h
      have ha := h₁ a (by simp)
      have hc := h₂ c (by simp)
      cases digitChar_inj_lt_ten a ha c hc h.1
      rw [ih t₂ (fun x hx => h₁ x (by simp [hx])) (fun x hx => h₂ x (by simp [hx]))
        h.2]

/-- Injectivity of `List.asString`. -/
theorem asString_inj (l₁ l₂ : List Char) (h : l₁.asString = l₂.asString) :
    l₁ = l₂ :=
  congrArg String.data h

/-- Injectivity of `Nat.repr`. -/
theorem natRepr_inj (m n : Nat) (h : Nat.repr m = Nat.repr n) : m = n := by
  apply reprDigits_inj
  apply map_digitChar_inj _ _ (reprDigits_lt_ten m) (reprDigits_lt_ten n)
  apply List.reverse_injective
  apply asString_inj
  rw [← repr_eq_reprDigits, ← repr_eq_reprDigits, h]

/-- Character data of a synthesized id. -/
theorem newId_data (c : Nat) :
    (newId c).data =
      (galleryItems.getD (c % galleryItems.length) dummyItem).id.data ++
        '-' :: (Nat.repr c).data := by
  simp [newId, String.data_append]

/-- The cyclic source id is a single character (`"1"`, `"2"` or `"3"`). -/
theorem sid_data (c : Nat) :
    ∃ ch : Char,
      (galleryItems.getD (c % galleryItems.length) dummyItem).id.data = [ch] := by
  have hl : galleryItems.length = 3 := rfl
  have h3 : c % galleryItems.length = 0 ∨ c % galleryItems.length = 1 ∨
      c % galleryItems.length = 2 := by
    have := Nat.mod_lt c (show 0 < galleryItems.length by decide)
    omega
  rcases h3 with h | h | h <;> rw [h]
  · exact ⟨'1', rfl⟩
  · exact ⟨'2', rfl⟩
  · exact ⟨'3', rfl⟩

/-- Synthesized ids determine their running counter. -/
theorem newId_inj (c₁ c₂ : Nat) (h : newId c₁ = newId c₂) : c₁ = c₂ := by
  obtain ⟨ch₁, h₁⟩ := sid_data c₁
  obtain ⟨ch₂, h₂⟩ := sid_data c₂
  have hd := congrArg String.data h
  rw [newId_data, newId_data, h₁, h₂] at hd
  simp only [List.cons_append, List.nil_append, List.cons.injEq] at hd
  exact natRepr_inj c₁ c₂ (String.ext hd.2.2)

/-- Synthesized ids have at least two characters. -/
theorem newId_two_le_length (c : Nat) : 2 ≤ (newId c).data.length := by
  obtain ⟨ch, h⟩ := sid_data c
  rw [newId_data, h]
  simp

/-- The ids of one synthesized batch. -/
theorem makeNewItems_ids (L : Nat) :
    (makeNewItems L).map GalleryItem.id =
      [newId L, newId (L + 1), newId (L + 2)] := by
  simp [makeNewItems, newId, List.range_succ]

/-- Length of the visible list after `k` batches. -/
theorem appendIter_length (k : Nat) : (appendIter k).length = 3 + 3 * k := by
  induction k with
  | zero => rfl
  | succ k ih =>
    simp only [appendIter, loadMoreAppend, List.length_append, ih, makeNewItems,
      List.length_map, List.length_range]
    ring

/-- The ids after `k` batches: the three base ids followed by synthesized
ids with counters `3, 4, …, 3 + 3k - 1`. -/
theorem appendIter_ids (k : Nat) :
    (appendIter k).map GalleryItem.id =
      ["1", "2", "3"] ++ (List.range (3 * k)).map (fun j => newId (3 + j)) := by
  induction k with
  | zero => rfl
  | succ k ih =>
    have h3 : 3 * (k + 1) = (3 * k + 1 + 1) + 1 := by ring
    rw [show appendIter (k + 1) = loadMoreAppend (appendIter k) from rfl,
      loadMoreAppend, List.map_append, ih, makeNewItems_ids, appendIter_length,
      h3, List.range_succ, List.range_succ, List.range_succ]
    simp only [List.map_append, List.map_cons, List.map_nil, List.append_assoc,
      List.cons_append, List.nil_append]
    have e1 : 3 + 3 * k = 3 + 3 * k := rfl
    have e2 : 3 + (3 * k + 1) = 3 + 3 * k + 1 := by omega
    have e3 : 3 + (3 * k + 1 + 1) = 3 + 3 * k + 2 := by omega
    rw [e2, e3]

/-- The ids after any number of trim-free batches are pairwise distinct. -/
theorem appendIter_ids_nodup (k : Nat) :
    ((appendIter k).map GalleryItem.id).Nodup := by
  rw [appendIter_ids]
  apply List.Nodup.append
  · decide
  · apply List.Nodup.map_on
    · intro x _ y _ hxy
      have := newId_inj (3 + x) (3 + y) hxy
      omega
    · exact List.nodup_range _
  · intro a ha hb
    obtain ⟨j, _, hj⟩ := List.mem_map.mp hb
    have h2 := newId_two_le_length (3 + j)
    rw [hj] at h2
    have h1 : a.data.length = 1 := by fin_cases ha <;> rfl
    omega

/-- C1 (amended): in every state reachable from mount through pagination
appends alone — no trim pass — the ids of the visible entries are
pairwise distinct. -/
theorem visible_ids_nodup_without_trim (evs : List GalleryEvent)
    (h : ∀ e ∈ evs, e.isTrim = false) :
    ((runEvents initState evs).visibleItems.map GalleryItem.id).Nodup := by
  suffices h2 : ∀ (l : List GalleryEvent), (∀ e ∈ l, e.isTrim = false) →
      ∀ (s : CompState) (k : Nat), s.visibleItems = appendIter k →
      ∃ k', (runEvents s l).visibleItems = appendIter k' by
    obtain ⟨k', hk'⟩ := h2 evs h initState 0 rfl
    rw [hk']
    exact appendIter_ids_nodup k'
  intro l
  induction l with
  | nil => intro _ s k hk; exact ⟨k, hk⟩
  | cons e t ih =>
    intro he s k hk
    have het : ∀ x ∈ t, x.isTrim = false :=
      fun x hx => he x (List.mem_cons_of_mem _ hx)
    show ∃ k', (runEvents (step s e) t).visibleItems = appendIter k'
    cases e with
    | sentinelTrigger =>
      apply ih het (step s .sentinelTrigger) k
      simp only [step]
      split <;> simp [hk]
    | loadTimerFire =>
      by_cases hp : s.pendingLoadTimer = true
      · apply ih het _ (k + 1)
        simp [step, hp, appendIter, hk]
      · apply ih het _ k
        simp only [step, Bool.not_eq_true] at hp ⊢
        rw [hp]
        simp [hk]
    | memoryOptimize vh st =>
      exact absurd (he _ (List.mem_cons_self _ _)) (by simp [GalleryEvent.isTrim])
    | unmount =>
      apply ih het _ k
      simp [step, hk]

/-- Witness for the amended C1 at the two-event trace of one batch. -/
theorem visible_ids_nodup_without_trim_witness :
    (∀ e ∈ [GalleryEvent.sentinelTrigger, GalleryEvent.loadTimerFire],
      e.isTrim = false) ∧
    ((runEvents initState
        [GalleryEvent.sentinelTrigger, GalleryEvent.loadTimerFire]).visibleItems.map
      GalleryItem.id).Nodup :=
  ⟨by decide, visible_ids_nodup_without_trim
    [GalleryEvent.sentinelTrigger, GalleryEvent.loadTimerFire] (by decide)⟩

/-- Trace reaching an id collision: seven pagination batches (24 entries,
counters 3–23), one trim pass at viewport 800 / scroll top 4000 (drops 4
entries, leaving 20), then one more batch, whose counters 20–22 repeat
ids already present. -/
def collisionTrace : List GalleryEvent :=
  [.sentinelTrigger, .loadTimerFire, .sentinelTrigger, .loadTimerFire,
   .sentinelTrigger, .loadTimerFire, .sentinelTrigger, .loadTimerFire,
   .sentinelTrigger, .loadTimerFire, .sentinelTrigger, .loadTimerFire,
   .sentinelTrigger, .loadTimerFire,
   .memoryOptimize 800 4000,
   .sentinelTrigger, .loadTimerFire]

/-- C1 counterexample: a reachable interleaving of pagination appends and
trim passes in which the visible ids are not pairwise distinct — the id
`"3-20"` occurs twice (the synthesized id collides with one already in the
list). -/
theorem visible_ids_collision :
    ¬ ((runEvents initState collisionTrace).visibleItems.map
        GalleryItem.id).Nodup ∧
    ((runEvents initState collisionTrace).visibleItems.map
        GalleryItem.id).count "3-20" = 2 := by
  constructor
  · decide
  · decide

/-- C2 (code divergence): after a sentinel trigger followed by unmount,
the 500ms pagination timer is still pending — no cleanup ever calls
`clearTimeout` on it — and when it fires it still mutates the state:
`visibleItems` grows from 3 to 6 and `isLoading` flips, although the
component is unmounted. -/
theorem unmount_leaves_pending_timer_mutation :
    (runEvents initState [.sentinelTrigger, .unmount]).mounted = false ∧
    (runEvents initState [.sentinelTrigger, .unmount]).pendingLoadTimer = true ∧
    (runEvents initState [.sentinelTrigger, .unmount]).isLoading = true ∧
    (runEvents initState [.sentinelTrigger, .unmount]).visibleItems.length = 3 ∧
    (step (runEvents initState [.sentinelTrigger, .unmount])
        .loadTimerFire).visibleItems.length = 6 ∧
    (step (runEvents initState [.sentinelTrigger, .unmount])
        .loadTimerFire).isLoading = false := by
  decide
